import Mathlib

/-!
Verification of the result-publisher logic of `pytest_testrail/plugin.py`.

The Python plugin is embedded shallowly:
* `list.sort(key=...)` (a stable ascending sort) is modelled by the stable
  insertion sort `pySort`;
* the remote client (`send_get` / `send_post` / `get_error`) is an oracle
  record `Client` whose methods return either an error text or a parsed
  response;
* every plugin method returns its new state together with the list of
  remote calls it made and the log events it printed.
-/

set_option maxHeartbeats 1000000

/-! ## Definitions: the embedded data model and plugin operations -/

/-- Stable insertion of `a` into `m`: `a` is placed before the first element
`b` with `le a b`, hence after every earlier element with an equal key.  This
is the insertion step of a stable ascending sort, the ordering contract of
Python's `list.sort(key=...)`. -/
def pyInsert (le : α → α → Bool) (a : α) : List α → List α
  | [] => [a]
  | b :: l => if le a b then a :: b :: l else b :: pyInsert le a l

/-- Stable ascending sort, modelling Python's `list.sort(key=...)`. -/
def pySort (le : α → α → Bool) : List α → List α
  | [] => []
  | a :: l => pyInsert le a (pySort le l)

/-- The dictionary `PYTEST_TO_TESTRAIL_STATUS`: outcome-name to TestRail status-id mapping. -/
def PYTEST_TO_TESTRAIL_STATUS : List (String × Nat) :=
  [("passed", 1), ("failed", 5), ("skipped", 2)]

/-- The function `get_test_outcome`: dictionary access, `none` models a `KeyError`. -/
def get_test_outcome (outcome : String) : Option Nat :=
  PYTEST_TO_TESTRAIL_STATUS.lookup outcome

/-- The value `PYTEST_TO_TESTRAIL_STATUS['skipped']`, as read by the skip check in
`add_results`. -/
def skipped_status_id : Nat :=
  (PYTEST_TO_TESTRAIL_STATUS.lookup "skipped").getD 0

/-- One entry of `self.results`, built by `add_result`.  Strings are embedded
as `List Char`; the float `duration` is embedded as a rational. -/
structure ResultRecord where
  case_id : Nat
  status_id : Nat
  comment : List Char
  duration : Rat
deriving DecidableEq

/-- The `key=itemgetter('status_id')` comparison. -/
def statusLe (a b : ResultRecord) : Bool := decide (a.status_id ≤ b.status_id)

/-- The `key=itemgetter('case_id')` comparison. -/
def caseLe (a b : ResultRecord) : Bool := decide (a.case_id ≤ b.case_id)

/-- The two in-place sort passes at the top of `add_results`:
`results.sort(key=itemgetter('status_id'))` then
`results.sort(key=itemgetter('case_id'))`. -/
def sortResults (rs : List ResultRecord) : List ResultRecord :=
  pySort caseLe (pySort statusLe rs)

def COMMENT_SIZE_LIMIT : Nat := 4000

/-- The fixed banner `"# Pytest result: #\n"`. -/
def commentBanner : List Char := "# Pytest result: #\n".toList

/-- The truncation marker `'Log truncated\n...\n'`. -/
def truncationNotice : List Char := "Log truncated\n...\n".toList

/-- The `replace('\n', '\n    ')` substitution on the comment body. -/
def indentAfterNewlines : List Char → List Char
  | [] => []
  | ch :: rest =>
    if ch = '\n' then '\n' :: ' ' :: ' ' :: ' ' :: ' ' :: indentAfterNewlines rest
    else ch :: indentAfterNewlines rest

/-- Python slice `s[-n:]` for `n > 0`: the last `n` characters (the whole
string when it is shorter than `n`). -/
def lastChars (n : Nat) (l : List Char) : List Char := l.drop (l.length - n)

/-- The `data['comment']` construction in `add_results`: `none` when the
record's comment is empty (falsy), otherwise banner, optional truncation
notice, then `"    " + str(comment)[-4000:].replace('\n', '\n    ')`. -/
def buildComment (comment : List Char) : Option (List Char) :=
  if comment = [] then none
  else some (commentBanner
      ++ (if COMMENT_SIZE_LIMIT < comment.length then truncationNotice else [])
      ++ ([' ', ' ', ' ', ' '] ++ indentAfterNewlines (lastChars COMMENT_SIZE_LIMIT comment)))

/-- Python 3 `round` to an integer: round half to even. -/
def pyRound (q : Rat) : Int :=
  let f : Int := ⌊q⌋
  let r : Rat := q - (f : Rat)
  if r < 1/2 then f
  else if 1/2 < r then f + 1
  else if f % 2 = 0 then f else f + 1

/-- The string `str(duration) + 's'`. -/
def formatElapsed (n : Int) : List Char := (toString n).toList ++ ['s']

/-- The `data['elapsed']` construction in `add_results`: absent when the
duration is falsy (0), else `duration = 1 if (duration < 1) else
int(round(duration))` formatted as `"<n>s"`. -/
def buildElapsed (duration : Rat) : Option (List Char) :=
  if duration = 0 then none
  else some (formatElapsed (if duration < 1 then 1 else pyRound duration))

/-- Without `re.MULTILINE`, the anchor `$` matches at the end of the string
and also just before a newline that ends the string, so the regex engine
first ignores one final newline. -/
def stripFinalNewline (s : List Char) : List Char :=
  match s.getLast? with
  | some ch => if ch = '\n' then s.dropLast else s
  | none => s

/-- The digit run matched by `re.search('(?P<test_id>[0-9]+$)', s)`: one
trailing newline is ignored (see `stripFinalNewline`), then the maximal
trailing digit run is taken. -/
def trailingDigits (s : List Char) : List Char :=
  ((stripFinalNewline s).reverse.takeWhile Char.isDigit).reverse

/-- Conversion of a digit string to a number, modelling `int`. -/
def digitsToNat (ds : List Char) : Nat :=
  ds.foldl (fun n ch => 10 * n + (ch.toNat - '0'.toNat)) 0

/-- One element of the comprehension in `clean_test_ids`: `none` models the
`AttributeError` raised when `re.search` finds no trailing digit run. -/
def clean_test_id (s : List Char) : Option Nat :=
  if trailingDigits s = [] then none
  else some (digitsToNat (trailingDigits s))

/-- The function `clean_test_ids`: map `clean_test_id` over the marker's id strings;
the first failure aborts (the exception propagates to the caller). -/
def clean_test_ids : List (List Char) → Option (List Nat)
  | [] => some []
  | s :: rest =>
    match clean_test_id s with
    | none => none
    | some n =>
      match clean_test_ids rest with
      | none => none
      | some ns => some (n :: ns)

/-- A collected test item as the plugin sees it: `none` when it carries no
`testrail` marker, otherwise the marker's list of case-id strings. -/
abbrev Item := Option (List (List Char))

/-- The function `get_testrail_keys`: accumulate (`extend`) the cleaned ids of every marked
item, in collection order; a parse failure propagates. -/
def get_testrail_keys : List Item → Option (List Nat)
  | [] => some []
  | item :: rest =>
    match item with
    | none => get_testrail_keys rest
    | some ids =>
      match clean_test_ids ids with
      | none => none
      | some ks =>
        match get_testrail_keys rest with
        | none => none
        | some rest' => some (ks ++ rest')

/-- The `data` dictionary posted by `create_test_run`. -/
structure AddRunPayload where
  suite_id : Nat
  name : List Char
  assignedto_id : Nat
  include_all : Bool
  case_ids : List Nat
  milestone_id : Nat
deriving DecidableEq

/-- The `data` dictionary posted for one result by `add_results`. -/
structure ResultPayload where
  status_id : Nat
  version : Option (List Char)
  comment : Option (List Char)
  elapsed : Option (List Char)
deriving DecidableEq

/-- Response to `get_run/{id}`. -/
structure RunInfo where
  is_completed : Bool
deriving DecidableEq

/-- One run inside a plan entry of a `get_plan/{id}` response. -/
structure PlanRun where
  id : Nat
  is_completed : Bool
deriving DecidableEq

/-- One entry of a `get_plan/{id}` response. -/
structure PlanEntry where
  runs : List PlanRun
deriving DecidableEq

/-- Response to `get_plan/{id}`. -/
structure PlanInfo where
  is_completed : Bool
  entries : List PlanEntry
deriving DecidableEq

/-- The remote-client collaborator: each method yields either the parsed
response or the error text that `get_error` would report.  `postResult` is
`send_post(add_result_for_case/run/case, data)` followed by `get_error`:
only the error outcome matters to the plugin. -/
structure Client where
  getRun : Nat → Except (List Char) RunInfo
  getPlan : Nat → Except (List Char) PlanInfo
  addRun : Nat → AddRunPayload → Except (List Char) Nat
  postResult : Nat → Nat → ResultPayload → Option (List Char)

/-- One remote call made by the plugin, with its payload. -/
inductive RemoteCall where
  | getRun (run_id : Nat)
  | getPlan (plan_id : Nat)
  | addRun (project_id : Nat) (payload : AddRunPayload)
  | postResult (run_id : Nat) (case_id : Nat) (payload : ResultPayload)
deriving DecidableEq

/-- The log lines the claims refer to (availability-probe failures are
printed by the code but not tracked here). -/
inductive LogEvent where
  | resultNotPublished (case_id : Nat) (error : List Char)
  | failedToCreateRun (error : List Char)
  | newRunCreated (run_id : Nat)
  | failedToRetrievePlan (error : List Char)
  | noDataPublished
deriving DecidableEq

/-- The mutable state of `PyTestRailPlugin` (constructor defaults:
`run_id=0`, `plan_id=0`; a zero id is falsy in the Python truth tests). -/
structure PyTestRailPlugin where
  assign_user_id : Nat
  cert_check : Bool
  project_id : Nat
  results : List ResultRecord
  suite_id : Nat
  testrun_name : Option (List Char)
  testrun_id : Nat
  testplan_id : Nat
  version : List Char
  add_skips : Bool
  milestone_id : Nat
  close_run : Bool
deriving DecidableEq

/-- The probe `is_testrun_available`: fetch errors count as unavailable, otherwise
available iff `is_completed` is false. -/
def is_testrun_available (c : Client) (p : PyTestRailPlugin) : Bool :=
  match c.getRun p.testrun_id with
  | .error _ => false
  | .ok r => !r.is_completed

/-- The probe `is_testplan_available`: fetch errors count as unavailable, otherwise
available iff `is_completed` is false. -/
def is_testplan_available (c : Client) (p : PyTestRailPlugin) : Bool :=
  match c.getPlan p.testplan_id with
  | .error _ => false
  | .ok info => !info.is_completed

/-- The run-creation payload assembled by `create_test_run`. -/
def runPayload (p : PyTestRailPlugin) (name : List Char) (tr_keys : List Nat) :
    AddRunPayload :=
  { suite_id := p.suite_id, name := name, assignedto_id := p.assign_user_id,
    include_all := false, case_ids := tr_keys, milestone_id := p.milestone_id }

/-- The method `create_test_run`: post `add_run/{project}`; on error only log, on
success adopt the returned run id. -/
def create_test_run (c : Client) (p : PyTestRailPlugin) (name : List Char)
    (tr_keys : List Nat) : PyTestRailPlugin × List RemoteCall × List LogEvent :=
  let payload := runPayload p name tr_keys
  match c.addRun p.project_id payload with
  | .error e =>
    (p, [RemoteCall.addRun p.project_id payload], [LogEvent.failedToCreateRun e])
  | .ok newId =>
    ({ p with testrun_id := newId },
     [RemoteCall.addRun p.project_id payload], [LogEvent.newRunCreated newId])

/-- The `get_plan` call made by the short-circuit availability check
`self.testplan_id and self.is_testplan_available()`. -/
def planProbe (p : PyTestRailPlugin) : List RemoteCall :=
  if p.testplan_id ≠ 0 then [RemoteCall.getPlan p.testplan_id] else []

/-- The `get_run` call made by the short-circuit availability check
`self.testrun_id and self.is_testrun_available()`. -/
def runProbe (p : PyTestRailPlugin) : List RemoteCall :=
  if p.testrun_id ≠ 0 then [RemoteCall.getRun p.testrun_id] else []

/-- The run branch and the create branch of `pytest_collection_modifyitems`,
entered when the plan branch was not taken.  `defaultName` stands for the
timestamped `testrun_name()` used when no run name was configured. -/
def collect_run_phase (c : Client) (defaultName : List Char) (tr_keys : List Nat)
    (p : PyTestRailPlugin) : PyTestRailPlugin × List RemoteCall × List LogEvent :=
  if p.testrun_id ≠ 0 ∧ is_testrun_available c p = true then
    ({ p with testplan_id := 0 }, runProbe p, [])
  else
    let name := p.testrun_name.getD defaultName
    let p1 := { p with testrun_name := some name }
    ((create_test_run c p1 name tr_keys).1,
     runProbe p ++ (create_test_run c p1 name tr_keys).2.1,
     (create_test_run c p1 name tr_keys).2.2)

/-- The hook `pytest_collection_modifyitems`: extract all marker ids (a parse failure
propagates as `none`), then resolve the run target with plan-over-run
precedence. -/
def pytest_collection_modifyitems (c : Client) (defaultName : List Char)
    (items : List Item) (p : PyTestRailPlugin) :
    Option (PyTestRailPlugin × List RemoteCall × List LogEvent) :=
  match get_testrail_keys items with
  | none => none
  | some tr_keys =>
    if p.testplan_id ≠ 0 ∧ is_testplan_available c p = true then
      some ({ p with testrun_id := 0 }, planProbe p, [])
    else
      some ((collect_run_phase c defaultName tr_keys p).1,
        planProbe p ++ (collect_run_phase c defaultName tr_keys p).2.1,
        (collect_run_phase c defaultName tr_keys p).2.2)

/-- The method `add_result`: append one record per declared case id. -/
def add_result (p : PyTestRailPlugin) (test_ids : List Nat) (status : Nat)
    (comment : List Char) (duration : Rat) : PyTestRailPlugin :=
  { p with results := p.results ++ test_ids.map (fun test_id =>
      { case_id := test_id, status_id := status,
        comment := comment, duration := duration }) }

/-- The per-record `data` dictionary built inside the loop of `add_results`. -/
def buildPayload (p : PyTestRailPlugin) (r : ResultRecord) : ResultPayload :=
  { status_id := r.status_id
  , version := if p.version = [] then none else some p.version
  , comment := buildComment r.comment
  , elapsed := buildElapsed r.duration }

/-- The publication loop of `add_results` over the sorted records: a record
is skipped (no call) when `add_skips is False` and the outgoing payload's
status is the skipped status; otherwise it is posted, and a reported error
only adds a log line. -/
def publishLoop (c : Client) (p : PyTestRailPlugin) (testrun_id : Nat) :
    List ResultRecord → List RemoteCall × List LogEvent
  | [] => ([], [])
  | r :: rest =>
    let data := buildPayload p r
    if p.add_skips = false ∧ data.status_id = skipped_status_id then
      publishLoop c p testrun_id rest
    else
      let err := c.postResult testrun_id r.case_id data
      let next := publishLoop c p testrun_id rest
      (RemoteCall.postResult testrun_id r.case_id data :: next.1,
       (match err with
        | some e => [LogEvent.resultNotPublished r.case_id e]
        | none => []) ++ next.2)

/-- The method `add_results`: sort `self.results` in place (two stable passes), then
publish record by record. -/
def add_results (c : Client) (p : PyTestRailPlugin) (testrun_id : Nat) :
    PyTestRailPlugin × List RemoteCall × List LogEvent :=
  let sorted := sortResults p.results
  let out := publishLoop c p testrun_id sorted
  ({ p with results := sorted }, out.1, out.2)

/-- The method `get_available_testruns`: every not-completed run of every entry of the
plan; a fetch error yields the empty list. -/
def get_available_testruns (c : Client) (plan_id : Nat) :
    List Nat × List RemoteCall × List LogEvent :=
  match c.getPlan plan_id with
  | .error e => ([], [RemoteCall.getPlan plan_id], [LogEvent.failedToRetrievePlan e])
  | .ok info =>
    (info.entries.flatMap (fun entry =>
        (entry.runs.filter (fun run => !run.is_completed)).map PlanRun.id),
     [RemoteCall.getPlan plan_id], [])

/-- The `for testrun_id in testruns: self.add_results(testrun_id)` loop of
`pytest_sessionfinish`, keeping the calls of each run separate. -/
def plan_publish (c : Client) :
    PyTestRailPlugin → List Nat →
      PyTestRailPlugin × List (List RemoteCall) × List LogEvent
  | p, [] => (p, [], [])
  | p, runId :: rest =>
    let one := add_results c p runId
    let next := plan_publish c one.1 rest
    (next.1, one.2.1 :: next.2.1, one.2.2 ++ next.2.2)

/-- The hook `pytest_sessionfinish`: publish to the selected run, else to every open
run of the selected plan, else log that nothing is published. -/
def pytest_sessionfinish (c : Client) (p : PyTestRailPlugin) :
    PyTestRailPlugin × List RemoteCall × List LogEvent :=
  if p.results ≠ [] then
    if p.testrun_id ≠ 0 then add_results c p p.testrun_id
    else if p.testplan_id ≠ 0 then
      let avail := get_available_testruns c p.testplan_id
      let pub := plan_publish c p avail.1
      (pub.1, avail.2.1 ++ pub.2.1.flatten, avail.2.2 ++ pub.2.2)
    else (p, [], [LogEvent.noDataPublished])
  else (p, [], [])

/-- Is this call a result submission (`add_result_for_case`)? -/
def isPostCall : RemoteCall → Bool
  | .postResult _ _ _ => true
  | _ => false

/-- Is this call a run creation (`add_run`)? -/
def isAddRunCall : RemoteCall → Bool
  | .addRun _ _ => true
  | _ => false

/-- The record-level skip check: records surviving the suppression test. -/
def keepRecord (p : PyTestRailPlugin) (r : ResultRecord) : Bool :=
  !(decide (p.add_skips = false ∧ r.status_id = skipped_status_id))

/-- A client whose every call fails with an empty error text. -/
def trivialClient : Client :=
  { getRun := fun _ => .error []
  , getPlan := fun _ => .error []
  , addRun := fun _ _ => .error []
  , postResult := fun _ _ _ => none }

/-- A plugin state with all defaults: no run id, no plan id, no records. -/
def basePlugin : PyTestRailPlugin :=
  { assign_user_id := 0, cert_check := true, project_id := 1, results := []
  , suite_id := 1, testrun_name := none, testrun_id := 0, testplan_id := 0
  , version := [], add_skips := true, milestone_id := 0, close_run := true }

/-- A record with the skipped status. -/
def skipRecord : ResultRecord :=
  { case_id := 3, status_id := 2, comment := [], duration := 0 }

/-- A record with the passed status. -/
def okRecord : ResultRecord :=
  { case_id := 3, status_id := 1, comment := [], duration := 0 }

/-- State `basePlugin` with skip publication disabled. -/
def pNoSkips : PyTestRailPlugin := { basePlugin with add_skips := false }

/-- A client whose result submissions always report the error `"E"`. -/
def errClient : Client := { trivialClient with postResult := fun _ _ _ => some ['E'] }

/-- Does the string end in a decimal digit (so that `[0-9]+$` can match)? -/
def endsWithDigit (s : List Char) : Bool :=
  match s.getLast? with
  | none => false
  | some ch => ch.isDigit

/-- A 4002-character comment whose kept 4000-character tail contains a
newline. -/
def c7Input : List Char := List.replicate 4000 'a' ++ ['\n', 'b']

/-- The comment text submitted for `c7Input`. -/
def c7Submitted : List Char := (buildComment c7Input).getD []

/-- Spec-side view of collection: the list of cleaned case-id lists, one per
marked test, in collection order. -/
def declared_per_item : List Item → Option (List (List Nat))
  | [] => some []
  | none :: rest => declared_per_item rest
  | some ids :: rest =>
    match clean_test_ids ids, declared_per_item rest with
    | some ks, some rest' => some (ks :: rest')
    | _, _ => none

/-- A client for which plan 9 exists and is open. -/
def planClient : Client :=
  { trivialClient with getPlan := fun _ => .ok { is_completed := false, entries := [] } }

/-- A plugin configured with both plan 9 and run 4. -/
def pPlan : PyTestRailPlugin := { basePlugin with testplan_id := 9, testrun_id := 4 }

/-- A client for which every plan fetch succeeds but reports a completed
plan, and run creation succeeds with id 7. -/
def c2Client : Client :=
  { getRun := fun _ => .error []
  , getPlan := fun _ => .ok { is_completed := true, entries := [] }
  , addRun := fun _ _ => .ok 7
  , postResult := fun _ _ _ => none }

/-- A plugin configured with plan id 5 only. -/
def c2Plugin : PyTestRailPlugin := { basePlugin with testplan_id := 5 }

/-- A client for which run 5 exists but is completed and run creation always
fails with error text `"b"`. -/
def c3Client : Client :=
  { getRun := fun _ => .ok { is_completed := true }
  , getPlan := fun _ => .error []
  , addRun := fun _ _ => .error ['b']
  , postResult := fun _ _ _ => none }

/-- A plugin configured with run id 5 and one accumulated passed record. -/
def c3Plugin : PyTestRailPlugin :=
  { basePlugin with testrun_id := 5, results := [okRecord] }

/-- The `(case_id, payload)` pairs carried by the result-submission calls of
a call list. -/
def submittedPayloads (cs : List RemoteCall) : List (Nat × ResultPayload) :=
  cs.filterMap (fun call => match call with
    | .postResult _ case_id payload => some (case_id, payload)
    | _ => none)

/-- A plugin holding one accumulated record. -/
def pOne : PyTestRailPlugin := { basePlugin with results := [okRecord] }

/-! ## Theorems -/

theorem pyInsert_perm (le : α → α → Bool) (a : α) :
    ∀ m : List α, List.Perm (pyInsert le a m) (a :: m)
  | [] => List.Perm.refl _
  | b :: l => by
    unfold pyInsert
    by_cases h : le a b = true
    · simp [h]
    · simp only [h, if_neg]
      exact ((pyInsert_perm le a l).cons b).trans (List.Perm.swap a b l)

theorem pySort_perm (le : α → α → Bool) :
    ∀ l : List α, List.Perm (pySort le l) l
  | [] => List.Perm.refl _
  | a :: l =>
    (pyInsert_perm le a (pySort le l)).trans ((pySort_perm le l).cons a)

theorem mem_pyInsert (le : α → α → Bool) (a x : α) (m : List α) :
    x ∈ pyInsert le a m ↔ x = a ∨ x ∈ m := by
  rw [(pyInsert_perm le a m).mem_iff]
  simp

theorem mem_pySort (le : α → α → Bool) (x : α) (l : List α) :
    x ∈ pySort le l ↔ x ∈ l :=
  (pySort_perm le l).mem_iff

/-- Pairwise preservation through one stable insertion.  The hypotheses say:
whenever `a` is placed before an element it relates forward to it, and
whenever it is placed after one the reverse relation holds. -/
theorem pyInsert_pairwise {le : α → α → Bool} {T : α → α → Prop} {a : α} :
    ∀ {m : List α}, m.Pairwise T →
    (∀ b ∈ m, le a b = true → T a b) →
    (∀ b ∈ m, ∀ c ∈ m, le a b = true → T b c → T a c) →
    (∀ b ∈ m, le a b = false → T b a) →
    (pyInsert le a m).Pairwise T
  | [], _, _, _, _ => List.pairwise_singleton T a
  | b :: m, hm, h1a, h1b, h2 => by
    unfold pyInsert
    by_cases h : le a b = true
    · simp only [h, if_pos]
      refine List.Pairwise.cons ?_ hm
      intro c hc
      rcases List.mem_cons.mp hc with hcb | hcm
      · exact hcb ▸ h1a b (List.mem_cons_self b m) h
      · exact h1b b (List.mem_cons_self b m) c (List.mem_cons_of_mem b hcm) h
          ((List.pairwise_cons.mp hm).1 c hcm)
    · simp only [h, if_neg, Bool.false_eq_true, not_false_iff]
      refine List.Pairwise.cons ?_ ?_
      · intro c hc
        rcases (mem_pyInsert le a c m).mp hc with hca | hcm
        · exact hca ▸ h2 b (List.mem_cons_self b m) (Bool.not_eq_true _ ▸ h)
        · exact (List.pairwise_cons.mp hm).1 c hcm
      · exact pyInsert_pairwise (List.pairwise_cons.mp hm).2
          (fun b' hb' => h1a b' (List.mem_cons_of_mem b hb'))
          (fun b' hb' c hc => h1b b' (List.mem_cons_of_mem b hb') c
            (List.mem_cons_of_mem b hc))
          (fun b' hb' => h2 b' (List.mem_cons_of_mem b hb'))

/-- Sorting with key `k` produces a list that is non-decreasing in `k`. -/
theorem pySort_sorted_key (k : α → Nat) :
    ∀ l : List α,
      (pySort (fun x y => decide (k x ≤ k y)) l).Pairwise (fun x y => k x ≤ k y)
  | [] => List.Pairwise.nil
  | a :: l => by
    unfold pySort
    refine pyInsert_pairwise (pySort_sorted_key k l) ?_ ?_ ?_
    · intro b _ hle
      exact of_decide_eq_true hle
    · intro b _ c _ hle hbc
      exact le_trans (of_decide_eq_true hle) hbc
    · intro b _ hle
      exact le_of_lt (Nat.lt_of_not_le (of_decide_eq_false hle))

/-- Stability of the second sort pass: sorting a `k2`-sorted list stably by
`k1` yields a list in which any two elements with equal `k1` key are still in
`k2` order. -/
theorem pySort_pairwise_stable (k1 k2 : α → Nat) :
    ∀ l : List α, l.Pairwise (fun x y => k2 x ≤ k2 y) →
      (pySort (fun x y => decide (k1 x ≤ k1 y)) l).Pairwise
        (fun x y => k1 x ≤ k1 y ∧ (k1 x = k1 y → k2 x ≤ k2 y))
  | [], _ => List.Pairwise.nil
  | a :: l, hl => by
    unfold pySort
    have hS : ∀ b ∈ pySort (fun x y => decide (k1 x ≤ k1 y)) l, k2 a ≤ k2 b := by
      intro b hb
      exact (List.pairwise_cons.mp hl).1 b ((mem_pySort _ b l).mp hb)
    refine pyInsert_pairwise
      (pySort_pairwise_stable k1 k2 l (List.pairwise_cons.mp hl).2) ?_ ?_ ?_
    · intro b hb hle
      exact ⟨of_decide_eq_true hle, fun _ => hS b hb⟩
    · intro b hb c hc hle hbc
      exact ⟨le_trans (of_decide_eq_true hle) hbc.1, fun _ => hS c hc⟩
    · intro b hb hle
      have h : k1 b < k1 a := Nat.lt_of_not_le (of_decide_eq_false hle)
      exact ⟨le_of_lt h, fun heq => absurd heq (Nat.ne_of_lt h)⟩

/-- The calls made by the publication loop: one post per non-suppressed
record, in order, independently of any error the client reports. -/
theorem publishLoop_calls (c : Client) (p : PyTestRailPlugin) (runId : Nat) :
    ∀ rs : List ResultRecord,
      (publishLoop c p runId rs).1
        = (rs.filter (keepRecord p)).map
            (fun r => RemoteCall.postResult runId r.case_id (buildPayload p r))
  | [] => rfl
  | r :: rest => by
    by_cases h : p.add_skips = false ∧ r.status_id = skipped_status_id
    · have hk : keepRecord p r = false := by simp [keepRecord, h.1, h.2]
      have hcond : p.add_skips = false ∧ (buildPayload p r).status_id = skipped_status_id := h
      simp only [publishLoop, if_pos hcond, List.filter_cons, hk, Bool.false_eq_true,
        if_false]
      exact publishLoop_calls c p runId rest
    · have hk : keepRecord p r = true := by
        simp only [keepRecord, Bool.not_eq_true']
        exact decide_eq_false h
      have hcond : ¬(p.add_skips = false ∧ (buildPayload p r).status_id = skipped_status_id) := h
      simp only [publishLoop, if_neg hcond, List.filter_cons, hk, if_true, List.map_cons]
      exact congrArg _ (publishLoop_calls c p runId rest)

/-- A reported error on a non-suppressed record leaves its log line (tagged
with the record's case id) in the loop's log output. -/
theorem publishLoop_log_mem (c : Client) (p : PyTestRailPlugin) (runId : Nat) :
    ∀ rs : List ResultRecord, ∀ r ∈ rs, keepRecord p r = true →
      ∀ e : List Char, c.postResult runId r.case_id (buildPayload p r) = some e →
        LogEvent.resultNotPublished r.case_id e ∈ (publishLoop c p runId rs).2
  | [], r, hr, _, _, _ => absurd hr (List.not_mem_nil r)
  | r0 :: rest, r, hr, hk, e, he => by
    rcases List.mem_cons.mp hr with hr0 | hrest
    · subst hr0
      have hcond : ¬(p.add_skips = false ∧ (buildPayload p r).status_id = skipped_status_id) := by
        intro hc
        have h2 : r.status_id = skipped_status_id := by simpa [buildPayload] using hc.2
        simp [keepRecord, hc.1, h2] at hk
      simp only [publishLoop, if_neg hcond, he]
      exact List.mem_append_left _ (List.mem_singleton.mpr rfl)
    · have ih := publishLoop_log_mem c p runId rest r hrest hk e he
      by_cases hcond : p.add_skips = false ∧ (buildPayload p r0).status_id = skipped_status_id
      · simpa only [publishLoop, if_pos hcond] using ih
      · simp only [publishLoop, if_neg hcond]
        exact List.mem_append_right _ ih

/-- The method `add_results` only rewrites `results` (to its sorted permutation): every
other field, in particular the run and plan ids and the configuration, is
untouched. -/
theorem add_results_state (c : Client) (p : PyTestRailPlugin) (runId : Nat) :
    (add_results c p runId).1
      = { p with results := sortResults p.results } := rfl

/-- The loop `plan_publish` preserves the run and plan ids. -/
theorem plan_publish_ids (c : Client) :
    ∀ (runIds : List Nat) (p : PyTestRailPlugin),
      (plan_publish c p runIds).1.testrun_id = p.testrun_id ∧
      (plan_publish c p runIds).1.testplan_id = p.testplan_id
  | [], _ => ⟨rfl, rfl⟩
  | runId :: rest, p => by
    have ih := plan_publish_ids c rest (add_results c p runId).1
    simpa only [plan_publish, add_results_state] using ih

/-- The hook `pytest_sessionfinish` preserves the run and plan ids. -/
theorem pytest_sessionfinish_ids (c : Client) (p : PyTestRailPlugin) :
    (pytest_sessionfinish c p).1.testrun_id = p.testrun_id ∧
    (pytest_sessionfinish c p).1.testplan_id = p.testplan_id := by
  unfold pytest_sessionfinish
  by_cases h1 : p.results ≠ []
  · rw [if_pos h1]
    by_cases h2 : p.testrun_id ≠ 0
    · rw [if_pos h2, add_results_state]
      exact ⟨rfl, rfl⟩
    · rw [if_neg h2]
      by_cases h3 : p.testplan_id ≠ 0
      · rw [if_pos h3]
        exact plan_publish_ids c _ p
      · rw [if_neg h3]
        exact ⟨rfl, rfl⟩
  · rw [if_neg h1]
    exact ⟨rfl, rfl⟩

/-- C4: after the two sort passes of `add_results`, the record list is a
permutation of the input, non-decreasing in `case_id`, and within equal
`case_id` non-decreasing in `status_id` (worst status last for a case). -/
theorem C4_sorted_results (rs : List ResultRecord) :
    List.Perm (sortResults rs) rs ∧
    (sortResults rs).Pairwise (fun a b =>
      a.case_id ≤ b.case_id ∧ (a.case_id = b.case_id → a.status_id ≤ b.status_id)) := by
  constructor
  · exact (pySort_perm caseLe _).trans (pySort_perm statusLe rs)
  · have h1 : (pySort statusLe rs).Pairwise
        (fun a b => a.status_id ≤ b.status_id) :=
      pySort_sorted_key ResultRecord.status_id rs
    exact pySort_pairwise_stable ResultRecord.case_id ResultRecord.status_id _ h1

/-- C5: inside the loop of `add_results`, a record with the skipped status
(2) contributes no client call when `add_skips` is `False`, and exactly one
when it is `True`. -/
theorem C5_skip_suppression (c : Client) (p : PyTestRailPlugin) (runId : Nat)
    (r : ResultRecord) (rest : List ResultRecord)
    (hskip : r.status_id = skipped_status_id) :
    (p.add_skips = false →
      (publishLoop c p runId (r :: rest)).1 = (publishLoop c p runId rest).1) ∧
    (p.add_skips = true →
      (publishLoop c p runId (r :: rest)).1.length
        = 1 + (publishLoop c p runId rest).1.length) := by
  constructor
  · intro hns
    have hcond : p.add_skips = false ∧ (buildPayload p r).status_id = skipped_status_id :=
      ⟨hns, by simpa [buildPayload] using hskip⟩
    simp only [publishLoop, if_pos hcond]
  · intro hs
    have hcond : ¬(p.add_skips = false ∧ (buildPayload p r).status_id = skipped_status_id) := by
      intro hc
      rw [hs] at hc
      exact absurd hc.1 (by simp)
    simp only [publishLoop, if_neg hcond, List.length_cons]
    omega

/-- Witness for C5 at a concrete skipped record: suppressed when
`add_skips = false`. -/
theorem C5_skip_suppression_witness :
    skipRecord.status_id = skipped_status_id ∧
    (publishLoop trivialClient pNoSkips 1 [skipRecord]).1
      = (publishLoop trivialClient pNoSkips 1 []).1 :=
  ⟨by decide,
   (C5_skip_suppression trivialClient pNoSkips 1 skipRecord [] (by decide)).1 (by decide)⟩

/-- C6: in the batch loop of `add_results`, a client-reported error is
logged with the failing record's case id and the loop continues: the posts
made are exactly one per non-suppressed record, independent of any errors,
and the loop is a total function (no exception escapes). -/
theorem C6_errors_logged_and_continue (c : Client) (p : PyTestRailPlugin)
    (runId : Nat) (rs : List ResultRecord) :
    (publishLoop c p runId rs).1
      = (rs.filter (keepRecord p)).map
          (fun r => RemoteCall.postResult runId r.case_id (buildPayload p r)) ∧
    (∀ r ∈ rs, keepRecord p r = true →
      ∀ e : List Char, c.postResult runId r.case_id (buildPayload p r) = some e →
        LogEvent.resultNotPublished r.case_id e ∈ (publishLoop c p runId rs).2) :=
  ⟨publishLoop_calls c p runId rs,
   fun r hr hk e he => publishLoop_log_mem c p runId rs r hr hk e he⟩

/-- Witness for C6: with a client that rejects every submission, the single
non-suppressed record is still posted and its error is logged with its case
id. -/
theorem C6_errors_logged_and_continue_witness :
    (publishLoop errClient basePlugin 1 [okRecord]).1
      = ([okRecord].filter (keepRecord basePlugin)).map
          (fun r => RemoteCall.postResult 1 r.case_id (buildPayload basePlugin r)) ∧
    LogEvent.resultNotPublished 3 ['E'] ∈ (publishLoop errClient basePlugin 1 [okRecord]).2 :=
  ⟨(C6_errors_logged_and_continue errClient basePlugin 1 [okRecord]).1,
   (C6_errors_logged_and_continue errClient basePlugin 1 [okRecord]).2
     okRecord (by decide) (by decide) ['E'] (by decide)⟩

theorem takeWhile_reverse_nil {s : List Char} (h : endsWithDigit s = false) :
    s.reverse.takeWhile Char.isDigit = [] := by
  cases hr : s.reverse with
  | nil => rfl
  | cons ch t =>
    have hh : s.getLast? = some ch := by
      rw [← List.head?_reverse, hr]
      rfl
    have hd : ch.isDigit = false := by
      simpa only [endsWithDigit, hh] using h
    simp [List.takeWhile_cons, hd]

theorem stripFinalNewline_of_getLast {s : List Char} {ch : Char}
    (h : s.getLast? = some ch) (hch : ¬ch = '\n') :
    stripFinalNewline s = s := by
  simp only [stripFinalNewline, h]
  rw [if_neg hch]

theorem trailing_core (pre run : List Char)
    (hdig : ∀ ch ∈ run, ch.isDigit = true) (hpre : endsWithDigit pre = false) :
    ((pre ++ run).reverse.takeWhile Char.isDigit).reverse = run := by
  rw [List.reverse_append,
    List.takeWhile_append_of_pos (fun a ha => hdig a (List.mem_reverse.mp ha)),
    takeWhile_reverse_nil hpre, List.append_nil, List.reverse_reverse]

theorem trailingDigits_append (pre run : List Char) (hne : run ≠ [])
    (hdig : ∀ ch ∈ run, ch.isDigit = true) (hpre : endsWithDigit pre = false) :
    trailingDigits (pre ++ run) = run := by
  obtain ⟨ch, hch⟩ : ∃ ch, run.getLast? = some ch := by
    cases hr : run.getLast? with
    | none => exact absurd (List.getLast?_eq_none_iff.mp hr) hne
    | some ch => exact ⟨ch, rfl⟩
  have hchd : ch.isDigit = true := hdig ch (List.mem_of_getLast?_eq_some hch)
  have hchn : ¬ch = '\n' := by
    intro he
    rw [he] at hchd
    exact absurd hchd (by decide)
  have hlast : (pre ++ run).getLast? = some ch := by
    rw [List.getLast?_append, hch]
    rfl
  unfold trailingDigits
  rw [stripFinalNewline_of_getLast hlast hchn]
  exact trailing_core pre run hdig hpre

/-- C9 (amended): a string ending in a digit run parses to the integer value
of its maximal trailing run; because the `$` anchor also matches just before
a newline that ends the string, the same string with one newline appended
parses to the same integer (silently accepted, no error); a string that,
after ignoring one final newline, still has no trailing digit fails to
parse, and one failure anywhere in a marker's id list aborts
`clean_test_ids` (that error propagates to the caller). -/
theorem C9_case_id_extraction :
    (∀ pre run : List Char, run ≠ [] → (∀ ch ∈ run, ch.isDigit = true) →
        endsWithDigit pre = false →
        clean_test_id (pre ++ run) = some (digitsToNat run)) ∧
    (∀ pre run : List Char, run ≠ [] → (∀ ch ∈ run, ch.isDigit = true) →
        endsWithDigit pre = false →
        clean_test_id (pre ++ run ++ ['\n']) = some (digitsToNat run)) ∧
    (∀ s : List Char, endsWithDigit (stripFinalNewline s) = false →
        clean_test_id s = none) ∧
    (∀ (ids : List (List Char)) (s : List Char), s ∈ ids →
        clean_test_id s = none → clean_test_ids ids = none) := by
  refine ⟨?_, ?_, ?_, ?_⟩
  · intro pre run hne hdig hpre
    unfold clean_test_id
    rw [trailingDigits_append pre run hne hdig hpre, if_neg hne]
  · intro pre run hne hdig hpre
    have hstrip : stripFinalNewline (pre ++ run ++ ['\n']) = pre ++ run := by
      simp only [stripFinalNewline, List.getLast?_concat]
      rw [if_pos trivial, List.dropLast_concat]
    unfold clean_test_id trailingDigits
    rw [hstrip, trailing_core pre run hdig hpre, if_neg hne]
  · intro s hs
    unfold clean_test_id trailingDigits
    rw [takeWhile_reverse_nil hs]
    rfl
  · intro ids
    induction ids with
    | nil => intro s hs; exact absurd hs (List.not_mem_nil s)
    | cons s0 rest ih =>
      intro s hs hnone
      rcases List.mem_cons.mp hs with rfl | hmem
      · simp [clean_test_ids, hnone]
      · cases h0 : clean_test_id s0 with
        | none => simp [clean_test_ids, h0]
        | some n => simp [clean_test_ids, h0, ih s hmem hnone]

/-- Counterexample to C9 as stated: the string `"C123\n"` has no trailing
decimal digit (its last character is a newline), yet the code parses it to
123 — `$` also matches just before a final newline — and the whole marker
list is accepted without any error. -/
theorem C9_case_id_extraction_counterexample :
    endsWithDigit "C123\n".toList = false ∧
    clean_test_id "C123\n".toList = some 123 ∧
    clean_test_ids ["C123\n".toList] = some [123] := by
  refine ⟨by decide, by decide, by decide⟩

/-- Witness for C9 on the concrete strings `"C123"` (parses to 123),
`"C123\n"` (also parses to 123) and `"Cabc"` (no trailing digit even after
ignoring a final newline: the whole list parse fails). -/
theorem C9_case_id_extraction_witness :
    clean_test_id ("C".toList ++ "123".toList) = some (digitsToNat "123".toList) ∧
    clean_test_id ("C".toList ++ "123".toList ++ ['\n']) = some (digitsToNat "123".toList) ∧
    clean_test_ids ["Cabc".toList] = none :=
  ⟨C9_case_id_extraction.1 "C".toList "123".toList (by decide) (by decide) (by decide),
   C9_case_id_extraction.2.1 "C".toList "123".toList (by decide) (by decide) (by decide),
   C9_case_id_extraction.2.2.2 ["Cabc".toList] "Cabc".toList (by decide)
     (C9_case_id_extraction.2.2.1 "Cabc".toList (by decide))⟩

/-- The `replace('\n', '\n    ')` substitution distributes over concatenation. -/
theorem indent_append : ∀ l1 l2 : List Char,
    indentAfterNewlines (l1 ++ l2) = indentAfterNewlines l1 ++ indentAfterNewlines l2
  | [], _ => rfl
  | ch :: rest, l2 => by
    by_cases h : ch = '\n'
    · simp [indentAfterNewlines, h, indent_append rest l2]
    · simp [indentAfterNewlines, h, indent_append rest l2]

/-- The `replace('\n', '\n    ')` substitution is the identity on newline-free text. -/
theorem indent_no_newline : ∀ l : List Char, (∀ ch ∈ l, ch ≠ '\n') →
    indentAfterNewlines l = l
  | [], _ => rfl
  | ch :: rest, h => by
    have hch : ¬ch = '\n' := h ch (List.mem_cons_self ch rest)
    simp [indentAfterNewlines, hch,
      indent_no_newline rest (fun c hc => h c (List.mem_cons_of_mem ch hc))]

/-- The last `n` characters of `X ++ Y` are exactly `Y` when `Y` has length
`n`. -/
theorem lastChars_append_right {n : Nat} {X Y : List Char} (h : Y.length = n) :
    lastChars n (X ++ Y) = Y := by
  unfold lastChars
  rw [List.length_append, h, Nat.add_sub_cancel, List.drop_left]

/-- Slicing `s[-n:]` is all of `s` when `s` is no longer than `n`. -/
theorem lastChars_of_le {n : Nat} {l : List Char} (h : l.length ≤ n) :
    lastChars n l = l := by
  unfold lastChars
  rw [Nat.sub_eq_zero_of_le h, List.drop_zero]

/-- C7 (amended): a non-empty comment is submitted as the fixed banner, then
— only when longer than 4000 characters — the truncation marker, then the
kept text (all of it when ≤ 4000, its last 4000 characters otherwise)
indented by four spaces (a leading `"    "` plus four spaces after every
newline).  When the kept tail contains no newline its last 4000 characters
coincide with the input's last 4000 characters; the indentation inserted
after newlines is what prevents this in general. -/
theorem C7_comment_formatting (comment : List Char) (hne : comment ≠ []) :
    (COMMENT_SIZE_LIMIT < comment.length →
      buildComment comment = some (commentBanner ++ truncationNotice ++
        ([' ', ' ', ' ', ' '] ++ indentAfterNewlines (lastChars COMMENT_SIZE_LIMIT comment))) ∧
      ((∀ ch ∈ lastChars COMMENT_SIZE_LIMIT comment, ch ≠ '\n') →
        lastChars COMMENT_SIZE_LIMIT ((buildComment comment).getD [])
          = lastChars COMMENT_SIZE_LIMIT comment)) ∧
    (comment.length ≤ COMMENT_SIZE_LIMIT →
      buildComment comment = some (commentBanner ++
        ([' ', ' ', ' ', ' '] ++ indentAfterNewlines comment))) := by
  constructor
  · intro hlt
    have hbc : buildComment comment = some (commentBanner ++ truncationNotice ++
        ([' ', ' ', ' ', ' '] ++ indentAfterNewlines (lastChars COMMENT_SIZE_LIMIT comment))) := by
      unfold buildComment
      rw [if_neg hne, if_pos hlt]
    refine ⟨hbc, ?_⟩
    intro hnonl
    have hid : indentAfterNewlines (lastChars COMMENT_SIZE_LIMIT comment)
        = lastChars COMMENT_SIZE_LIMIT comment := indent_no_newline _ hnonl
    have hlen : (lastChars COMMENT_SIZE_LIMIT comment).length = COMMENT_SIZE_LIMIT := by
      unfold lastChars
      rw [List.length_drop]
      omega
    rw [hbc]
    show lastChars COMMENT_SIZE_LIMIT (commentBanner ++ truncationNotice ++
        ([' ', ' ', ' ', ' '] ++ indentAfterNewlines (lastChars COMMENT_SIZE_LIMIT comment)))
      = lastChars COMMENT_SIZE_LIMIT comment
    rw [hid, ← List.append_assoc, lastChars_append_right hlen]
  · intro hle
    unfold buildComment
    rw [if_neg hne, if_neg (by omega : ¬COMMENT_SIZE_LIMIT < comment.length),
      lastChars_of_le hle]
    simp

/-- Witness for C7 at the one-character comment `"x"` (the ≤ 4000 branch). -/
theorem C7_comment_formatting_witness :
    (['x'] : List Char) ≠ [] ∧
    buildComment ['x']
      = some (commentBanner ++ ([' ', ' ', ' ', ' '] ++ indentAfterNewlines ['x'])) :=
  ⟨by decide, (C7_comment_formatting ['x'] (by decide)).2 (by decide)⟩

/-- Counterexample to C7 as stated: for this over-long comment the submitted
text's last 4000 characters differ from the input's last 4000 characters —
the four spaces inserted after the kept newline shift the tail. -/
theorem C7_comment_formatting_counterexample :
    COMMENT_SIZE_LIMIT < c7Input.length ∧
    COMMENT_SIZE_LIMIT ≤ c7Submitted.length ∧
    lastChars COMMENT_SIZE_LIMIT c7Submitted ≠ lastChars COMMENT_SIZE_LIMIT c7Input := by
  have hlen : c7Input.length = 4002 := by
    rw [c7Input, List.length_append, List.length_replicate]
    rfl
  have hlt : COMMENT_SIZE_LIMIT < c7Input.length := by
    rw [hlen]
    decide
  have hne : c7Input ≠ [] := by
    intro h
    rw [h] at hlen
    exact absurd hlen (by decide)
  have hsplit : c7Input = List.replicate 2 'a' ++ (List.replicate 3998 'a' ++ ['\n', 'b']) := by
    rw [c7Input, show (4000 : Nat) = 2 + 3998 from rfl, List.replicate_add,
      List.append_assoc]
  have hslice : lastChars COMMENT_SIZE_LIMIT c7Input
      = List.replicate 3998 'a' ++ ['\n', 'b'] := by
    unfold lastChars
    rw [hlen, show (4002 : Nat) - COMMENT_SIZE_LIMIT = 2 from rfl, hsplit,
      List.drop_left' (by rw [List.length_replicate])]
  have hindent : indentAfterNewlines (List.replicate 3998 'a' ++ ['\n', 'b'])
      = List.replicate 3998 'a' ++ ('\n' :: ' ' :: ' ' :: ' ' :: ' ' :: ['b']) := by
    rw [indent_append, indent_no_newline (List.replicate 3998 'a') (by
      intro ch hch
      rw [List.eq_of_mem_replicate hch]
      decide)]
    rfl
  have hsub : c7Submitted
      = commentBanner ++ truncationNotice ++
        ([' ', ' ', ' ', ' '] ++
          (List.replicate 3998 'a' ++ ('\n' :: ' ' :: ' ' :: ' ' :: ' ' :: ['b']))) := by
    unfold c7Submitted buildComment
    rw [if_neg hne, if_pos hlt, hslice, hindent]
    rfl
  have hsub45 : c7Submitted
      = (commentBanner ++ truncationNotice ++ [' ', ' ', ' ', ' '] ++ List.replicate 4 'a') ++
        (List.replicate 3994 'a' ++ ('\n' :: ' ' :: ' ' :: ' ' :: ' ' :: ['b'])) := by
    rw [hsub, show (3998 : Nat) = 4 + 3994 from rfl, List.replicate_add]
    simp only [List.append_assoc]
  have hsliceLen :
      (List.replicate 3994 'a' ++ ('\n' :: ' ' :: ' ' :: ' ' :: ' ' :: ['b'])).length
        = COMMENT_SIZE_LIMIT := by
    rw [List.length_append, List.length_replicate]
    rfl
  have htail : lastChars COMMENT_SIZE_LIMIT c7Submitted
      = List.replicate 3994 'a' ++ ('\n' :: ' ' :: ' ' :: ' ' :: ' ' :: ['b']) := by
    rw [hsub45]
    exact lastChars_append_right hsliceLen
  refine ⟨hlt, ?_, ?_⟩
  · rw [hsub45, List.length_append, hsliceLen]
    omega
  · rw [htail, hslice]
    intro h
    have h2 := congrArg (List.drop 3994) h
    rw [List.drop_left' (by rw [List.length_replicate])] at h2
    rw [show List.replicate 3998 'a' = List.replicate 3994 'a' ++ List.replicate 4 'a'
        from by rw [← List.replicate_add], List.append_assoc,
      List.drop_left' (by rw [List.length_replicate])] at h2
    exact absurd h2 (by decide)

theorem pyRound_one : pyRound 1 = 1 := by norm_num [pyRound]

/-- C8: a nonzero duration is submitted as `"<n>s"` where `n` is the
duration clamped to a minimum of 1 and rounded to the nearest whole second
(Python 3 `round`: ties to even); a zero duration produces no `elapsed`
field at all.  The spec's samples: 0.3 → "1s", 1.4 → "1s", 2.6 → "3s". -/
theorem C8_duration_formatting :
    (∀ d : Rat, buildElapsed d =
      if d = 0 then none else some (formatElapsed (pyRound (max 1 d)))) ∧
    buildElapsed (3/10) = some ['1', 's'] ∧
    buildElapsed (7/5) = some ['1', 's'] ∧
    buildElapsed (13/5) = some ['3', 's'] ∧
    buildElapsed 0 = none := by
  refine ⟨?_, ?_, ?_, ?_, by decide⟩
  · intro d
    unfold buildElapsed
    by_cases h0 : d = 0
    · rw [if_pos h0, if_pos h0]
    · rw [if_neg h0, if_neg h0]
      by_cases hlt : d < 1
      · rw [if_pos hlt, max_eq_left (le_of_lt hlt), pyRound_one]
      · rw [if_neg hlt, max_eq_right (not_lt.mp hlt)]
  · have h : buildElapsed (3/10) = some (formatElapsed 1) := by
      norm_num [buildElapsed]
    rw [h]
    decide
  · have ha : pyRound (7/5) = 1 := by norm_num [pyRound]
    have hb : buildElapsed (7/5) = some (formatElapsed (pyRound (7/5))) := by
      norm_num [buildElapsed]
    rw [hb, ha]
    decide
  · have ha : pyRound (13/5) = 3 := by norm_num [pyRound]
    have hb : buildElapsed (13/5) = some (formatElapsed (pyRound (13/5))) := by
      norm_num [buildElapsed]
    rw [hb, ha]
    decide

/-- The accumulated marker keys are exactly the concatenation of the
per-test declared id lists. -/
theorem get_testrail_keys_eq_flatten :
    ∀ items : List Item,
      get_testrail_keys items = (declared_per_item items).map List.flatten
  | [] => rfl
  | none :: rest => by
    simpa only [get_testrail_keys, declared_per_item]
      using get_testrail_keys_eq_flatten rest
  | some ids :: rest => by
    have ih := get_testrail_keys_eq_flatten rest
    cases hc : clean_test_ids ids with
    | none => simp [get_testrail_keys, declared_per_item, hc]
    | some ks =>
      cases hd : declared_per_item rest with
      | none =>
        have : get_testrail_keys rest = none := by rw [ih, hd]; rfl
        simp [get_testrail_keys, declared_per_item, hc, hd, this]
      | some rest' =>
        have : get_testrail_keys rest = some rest'.flatten := by rw [ih, hd]; rfl
        simp [get_testrail_keys, declared_per_item, hc, hd, this]

theorem planProbe_no_addRun (p : PyTestRailPlugin) :
    (planProbe p).filter isAddRunCall = [] := by
  unfold planProbe
  by_cases h : p.testplan_id ≠ 0 <;> simp [h, isAddRunCall]

theorem runProbe_no_addRun (p : PyTestRailPlugin) :
    (runProbe p).filter isAddRunCall = [] := by
  unfold runProbe
  by_cases h : p.testrun_id ≠ 0 <;> simp [h, isAddRunCall]

/-- C1: run-target resolution during collection.  (i) a configured, open
plan is selected and the run id cleared; (ii) otherwise a configured, open
run is selected and the plan id cleared; (iii) otherwise exactly one
`add_run` call is issued, whose `case_ids` payload is the accumulated marker
keys; and those keys are the concatenation of the per-test declared id
lists. -/
theorem C1_run_resolution (c : Client) (defaultName : List Char)
    (items : List Item) (p : PyTestRailPlugin) (tr_keys : List Nat)
    (hkeys : get_testrail_keys items = some tr_keys) :
    (p.testplan_id ≠ 0 ∧ is_testplan_available c p = true →
       pytest_collection_modifyitems c defaultName items p
         = some ({ p with testrun_id := 0 }, planProbe p, [])) ∧
    (¬(p.testplan_id ≠ 0 ∧ is_testplan_available c p = true) →
       p.testrun_id ≠ 0 ∧ is_testrun_available c p = true →
       pytest_collection_modifyitems c defaultName items p
         = some ({ p with testplan_id := 0 }, planProbe p ++ runProbe p, [])) ∧
    (¬(p.testplan_id ≠ 0 ∧ is_testplan_available c p = true) →
     ¬(p.testrun_id ≠ 0 ∧ is_testrun_available c p = true) →
       (pytest_collection_modifyitems c defaultName items p).map
           (fun out => out.2.1.filter isAddRunCall)
         = some [RemoteCall.addRun p.project_id
             (runPayload { p with testrun_name := some (p.testrun_name.getD defaultName) }
               (p.testrun_name.getD defaultName) tr_keys)]) ∧
    (∀ perItem : List (List Nat), declared_per_item items = some perItem →
       tr_keys = perItem.flatten) := by
  refine ⟨?_, ?_, ?_, ?_⟩
  · intro hplan
    simp only [pytest_collection_modifyitems, hkeys]
    rw [if_pos hplan]
  · intro hplan hrun
    simp only [pytest_collection_modifyitems, hkeys]
    rw [if_neg hplan]
    unfold collect_run_phase
    rw [if_pos hrun]
  · intro hplan hrun
    simp only [pytest_collection_modifyitems, hkeys]
    rw [if_neg hplan]
    unfold collect_run_phase
    rw [if_neg hrun]
    unfold create_test_run
    cases haddr : c.addRun p.project_id
        (runPayload { p with testrun_name := some (p.testrun_name.getD defaultName) }
          (p.testrun_name.getD defaultName) tr_keys) with
    | error e =>
      simp [haddr, List.filter_append, planProbe_no_addRun, runProbe_no_addRun, isAddRunCall]
    | ok newId =>
      simp [haddr, List.filter_append, planProbe_no_addRun, runProbe_no_addRun, isAddRunCall]
  · intro perItem hper
    have h := get_testrail_keys_eq_flatten items
    rw [hkeys, hper] at h
    exact Option.some.inj h

/-- Witness for C1: with an open plan configured, the plan wins and the run
id is cleared. -/
theorem C1_run_resolution_witness :
    get_testrail_keys [some ["C12".toList]] = some [12] ∧
    pytest_collection_modifyitems planClient [] [some ["C12".toList]] pPlan
      = some ({ pPlan with testrun_id := 0 }, planProbe pPlan, []) :=
  ⟨by decide,
   (C1_run_resolution planClient [] [some ["C12".toList]] pPlan [12] (by decide)).1
     (by decide)⟩

/-- Counterexample to C2 as stated: a configured plan that turns out to be
completed falls through to run creation, which does not clear the stale plan
id — after collection both the run id (7) and the plan id (5) are nonzero. -/
theorem C2_target_exclusivity_counterexample :
    (pytest_collection_modifyitems c2Client [] [] c2Plugin).map
        (fun out => (out.1.testrun_id, out.1.testplan_id))
      = some (7, 5) ∧ (7 : Nat) ≠ 0 ∧ (5 : Nat) ≠ 0 := by
  refine ⟨by decide, by decide, by decide⟩

/-- The method `create_test_run` never touches the plan id. -/
theorem create_test_run_plan_id (c : Client) (q : PyTestRailPlugin)
    (name : List Char) (keys : List Nat) :
    (create_test_run c q name keys).1.testplan_id = q.testplan_id := by
  simp only [create_test_run]
  split <;> rfl

/-- C2 (amended): when no plan id is configured, at most one of
{run id, plan id} is nonzero after collection (in fact the plan id stays 0),
and neither `add_result` nor `pytest_sessionfinish` ever changes either id,
so the exclusivity persists for the rest of the session.  When a nonzero
plan id falls through to the run-creation branch it is not cleared, so the
exclusivity can fail there (see the counterexample). -/
theorem C2_target_exclusivity (c : Client) (defaultName : List Char)
    (items : List Item) (p : PyTestRailPlugin) (hplan0 : p.testplan_id = 0) :
    ∀ out, pytest_collection_modifyitems c defaultName items p = some out →
      (out.1.testrun_id = 0 ∨ out.1.testplan_id = 0) ∧
      (∀ (ids : List Nat) (status : Nat) (comment : List Char) (duration : Rat),
        (add_result out.1 ids status comment duration).testrun_id = out.1.testrun_id ∧
        (add_result out.1 ids status comment duration).testplan_id = out.1.testplan_id) ∧
      ((pytest_sessionfinish c out.1).1.testrun_id = out.1.testrun_id ∧
       (pytest_sessionfinish c out.1).1.testplan_id = out.1.testplan_id) := by
  intro out heq
  have hplan : out.1.testplan_id = 0 := by
    cases hkeys : get_testrail_keys items with
    | none =>
      unfold pytest_collection_modifyitems at heq
      rw [hkeys] at heq
      exact Option.noConfusion heq
    | some tr_keys =>
      simp only [pytest_collection_modifyitems, hkeys] at heq
      rw [if_neg (fun h => h.1 hplan0)] at heq
      obtain rfl := (Option.some.inj heq).symm
      show (collect_run_phase c defaultName tr_keys p).1.testplan_id = 0
      unfold collect_run_phase
      by_cases hrun : p.testrun_id ≠ 0 ∧ is_testrun_available c p = true
      · rw [if_pos hrun]
      · rw [if_neg hrun]
        show (create_test_run c
            { p with testrun_name := some (p.testrun_name.getD defaultName) }
            (p.testrun_name.getD defaultName) tr_keys).1.testplan_id = 0
        rw [create_test_run_plan_id]
        exact hplan0
  exact ⟨Or.inr hplan, fun _ _ _ _ => ⟨rfl, rfl⟩, pytest_sessionfinish_ids c out.1⟩

/-- Witness for C2 at the default configuration (no plan id) with a failing
client: collection leaves at most one id nonzero. -/
theorem C2_target_exclusivity_witness :
    basePlugin.testplan_id = 0 ∧
    (((pytest_collection_modifyitems trivialClient [] [] basePlugin).getD
        (basePlugin, [], [])).1.testrun_id = 0 ∨
     ((pytest_collection_modifyitems trivialClient [] [] basePlugin).getD
        (basePlugin, [], [])).1.testplan_id = 0) :=
  ⟨rfl,
   (C2_target_exclusivity trivialClient [] [] basePlugin rfl
     ((pytest_collection_modifyitems trivialClient [] [] basePlugin).getD
       (basePlugin, [], [])) rfl).1⟩

/-- With neither a run id nor a plan id set, `pytest_sessionfinish` makes no
remote call at all. -/
theorem sessionfinish_no_posts (c : Client) (q : PyTestRailPlugin)
    (hr : q.testrun_id = 0) (hp : q.testplan_id = 0) :
    (pytest_sessionfinish c q).2.1 = [] := by
  unfold pytest_sessionfinish
  by_cases h1 : q.results ≠ []
  · rw [if_pos h1, if_neg (fun h => h hr), if_neg (fun h => h hp)]
  · rw [if_neg h1]

/-- Counterexample to C3 as stated: run 5 is configured but completed, run
creation is attempted and fails, yet the stale run id 5 survives collection
and the session-finish phase still submits 1 result (not 0). -/
theorem C3_creation_failure_counterexample :
    (pytest_collection_modifyitems c3Client [] [] c3Plugin).map
        (fun out => (out.1.testrun_id, out.1.testplan_id, out.2.2,
          ((pytest_sessionfinish c3Client out.1).2.1.filter isPostCall).length))
      = some (5, 0, [LogEvent.failedToCreateRun ['b']], 1) ∧ (1 : Nat) ≠ 0 := by
  refine ⟨by decide, by decide⟩

/-- C3 (amended): when no run id and no plan id were configured, a failed
run creation is logged and leaves both ids 0, and the session-finish phase
then submits nothing.  A stale nonzero configured run id, however, survives
a failed creation and is published to (see the counterexample). -/
theorem C3_creation_failure (c : Client) (defaultName : List Char)
    (items : List Item) (p : PyTestRailPlugin)
    (hrun0 : p.testrun_id = 0) (hplan0 : p.testplan_id = 0)
    (herr : ∀ payload : AddRunPayload, ∃ e, c.addRun p.project_id payload = Except.error e) :
    ∀ out, pytest_collection_modifyitems c defaultName items p = some out →
      out.1.testrun_id = 0 ∧ out.1.testplan_id = 0 ∧
      (∃ e, LogEvent.failedToCreateRun e ∈ out.2.2) ∧
      (pytest_sessionfinish c out.1).2.1.filter isPostCall = [] := by
  intro out heq
  cases hkeys : get_testrail_keys items with
  | none =>
    unfold pytest_collection_modifyitems at heq
    rw [hkeys] at heq
    exact Option.noConfusion heq
  | some tr_keys =>
    simp only [pytest_collection_modifyitems, hkeys] at heq
    rw [if_neg (fun h => h.1 hplan0)] at heq
    have hout := (Option.some.inj heq).symm
    subst hout
    have hrunBranch : ¬(p.testrun_id ≠ 0 ∧ is_testrun_available c p = true) :=
      fun h => h.1 hrun0
    obtain ⟨e, he⟩ := herr
      (runPayload { p with testrun_name := some (p.testrun_name.getD defaultName) }
        (p.testrun_name.getD defaultName) tr_keys)
    have hcreate : create_test_run c
        { p with testrun_name := some (p.testrun_name.getD defaultName) }
        (p.testrun_name.getD defaultName) tr_keys
        = ({ p with testrun_name := some (p.testrun_name.getD defaultName) },
           [RemoteCall.addRun p.project_id
             (runPayload { p with testrun_name := some (p.testrun_name.getD defaultName) }
               (p.testrun_name.getD defaultName) tr_keys)],
           [LogEvent.failedToCreateRun e]) := by
      simp only [create_test_run, he]
    have hcrp : collect_run_phase c defaultName tr_keys p
        = ({ p with testrun_name := some (p.testrun_name.getD defaultName) },
           runProbe p ++ [RemoteCall.addRun p.project_id
             (runPayload { p with testrun_name := some (p.testrun_name.getD defaultName) }
               (p.testrun_name.getD defaultName) tr_keys)],
           [LogEvent.failedToCreateRun e]) := by
      unfold collect_run_phase
      rw [if_neg hrunBranch]
      show ((create_test_run c
          { p with testrun_name := some (p.testrun_name.getD defaultName) }
          (p.testrun_name.getD defaultName) tr_keys).1,
        runProbe p ++ (create_test_run c
          { p with testrun_name := some (p.testrun_name.getD defaultName) }
          (p.testrun_name.getD defaultName) tr_keys).2.1,
        (create_test_run c
          { p with testrun_name := some (p.testrun_name.getD defaultName) }
          (p.testrun_name.getD defaultName) tr_keys).2.2) = _
      rw [hcreate]
    refine ⟨?_, ?_, ?_, ?_⟩
    · show (collect_run_phase c defaultName tr_keys p).1.testrun_id = 0
      rw [hcrp]
      exact hrun0
    · show (collect_run_phase c defaultName tr_keys p).1.testplan_id = 0
      rw [hcrp]
      exact hplan0
    · show ∃ e', LogEvent.failedToCreateRun e'
          ∈ (collect_run_phase c defaultName tr_keys p).2.2
      rw [hcrp]
      exact ⟨e, List.mem_singleton.mpr rfl⟩
    · have hr0 : (collect_run_phase c defaultName tr_keys p).1.testrun_id = 0 := by
        rw [hcrp]
        exact hrun0
      have hp0 : (collect_run_phase c defaultName tr_keys p).1.testplan_id = 0 := by
        rw [hcrp]
        exact hplan0
      show ((pytest_sessionfinish c
          (collect_run_phase c defaultName tr_keys p).1).2.1).filter isPostCall = []
      rw [sessionfinish_no_posts c _ hr0 hp0]
      rfl

/-- Witness for C3 at the default configuration with an always-failing
client: after the failed creation the run id is 0 and session finish posts
nothing. -/
theorem C3_creation_failure_witness :
    basePlugin.testrun_id = 0 ∧ basePlugin.testplan_id = 0 ∧
    ((pytest_collection_modifyitems trivialClient [] [] basePlugin).getD
        (basePlugin, [], [])).1.testrun_id = 0 ∧
    (pytest_sessionfinish trivialClient
        ((pytest_collection_modifyitems trivialClient [] [] basePlugin).getD
          (basePlugin, [], [])).1).2.1.filter isPostCall = [] :=
  ⟨rfl, rfl,
   (C3_creation_failure trivialClient [] [] basePlugin rfl rfl
       (fun _ => ⟨[], rfl⟩)
       ((pytest_collection_modifyitems trivialClient [] [] basePlugin).getD
         (basePlugin, [], [])) rfl).1,
   (C3_creation_failure trivialClient [] [] basePlugin rfl rfl
       (fun _ => ⟨[], rfl⟩)
       ((pytest_collection_modifyitems trivialClient [] [] basePlugin).getD
         (basePlugin, [], [])) rfl).2.2.2⟩

theorem sortResults_perm (rs : List ResultRecord) :
    List.Perm (sortResults rs) rs :=
  (pySort_perm caseLe _).trans (pySort_perm statusLe rs)

theorem submittedPayloads_map_post (runId : Nat) (f : ResultRecord → ResultPayload) :
    ∀ l : List ResultRecord,
      submittedPayloads (l.map (fun r => RemoteCall.postResult runId r.case_id (f r)))
        = l.map (fun r => (r.case_id, f r))
  | [] => rfl
  | r :: rest => by
    simp only [List.map_cons, submittedPayloads, List.filterMap_cons]
    exact congrArg _ (submittedPayloads_map_post runId f rest)

/-- Each run published from a plan receives submissions built from the same
record multiset: the one accumulated before session finish. -/
theorem plan_publish_each_run (c : Client) (p : PyTestRailPlugin) :
    ∀ (runIds : List Nat) (q : PyTestRailPlugin),
      List.Perm q.results p.results → q.add_skips = p.add_skips →
      q.version = p.version →
      ∀ cs ∈ (plan_publish c q runIds).2.1,
        List.Perm (submittedPayloads cs)
          ((p.results.filter (keepRecord p)).map
            (fun r => (r.case_id, buildPayload p r)))
  | [], _, _, _, _ => fun cs hcs => absurd hcs (List.not_mem_nil cs)
  | runId :: rest, q, hperm, hskips, hver => by
    intro cs hcs
    have hkeep : keepRecord q = keepRecord p := by
      funext r
      simp [keepRecord, hskips]
    have hbp : buildPayload q = buildPayload p := by
      funext r
      simp [buildPayload, hver]
    simp only [plan_publish, List.mem_cons] at hcs
    rcases hcs with rfl | hmem
    · show List.Perm (submittedPayloads (publishLoop c q runId (sortResults q.results)).1) _
      rw [publishLoop_calls, submittedPayloads_map_post, hkeep, hbp]
      exact (((sortResults_perm q.results).trans hperm).filter (keepRecord p)).map _
    · exact plan_publish_each_run c p rest (add_results c q runId).1
        ((sortResults_perm q.results).trans hperm) hskips hver cs hmem

/-- C10: the method `add_results` neither mutates nor drops records — it only replaces
the list by its sorted permutation — and therefore every run updated from a
plan receives submissions built from the same (unchanged) record multiset. -/
theorem C10_records_immutable (c : Client) (p : PyTestRailPlugin) (runId : Nat)
    (runIds : List Nat) :
    List.Perm ((add_results c p runId).1.results) p.results ∧
    (∀ cs ∈ (plan_publish c p runIds).2.1,
      List.Perm (submittedPayloads cs)
        ((p.results.filter (keepRecord p)).map
          (fun r => (r.case_id, buildPayload p r)))) :=
  ⟨sortResults_perm p.results,
   plan_publish_each_run c p runIds p (List.Perm.refl _) rfl rfl⟩

/-- Witness for C10 on a one-record state published to the plan runs `[1]`. -/
theorem C10_records_immutable_witness :
    List.Perm ((add_results trivialClient pOne 1).1.results) pOne.results ∧
    List.Perm (submittedPayloads ((add_results trivialClient pOne 1).2.1))
      ((pOne.results.filter (keepRecord pOne)).map
        (fun r => (r.case_id, buildPayload pOne r))) :=
  ⟨(C10_records_immutable trivialClient pOne 1 [1]).1,
   (C10_records_immutable trivialClient pOne 1 [1]).2
     ((add_results trivialClient pOne 1).2.1) (List.mem_singleton.mpr rfl)⟩
